import Mathlib

/-!
Verification of the starling repository's rendering `Effect` lifecycle and the
`MovieScene` juggler wiring.

The repository ships `src/lib/starling/rendering/Effect.d.ts`, a type
declaration surface whose implementation is not part of the repository; the
behavioural model below is therefore built from the specification's own
description of the operations (buffer reuse/reallocation policy, purge and
dispose semantics, the three-phase render protocol, and program-cache
resolution), as the spec directs.  `src/samples/demo_npm/as3/src/scenes/MovieScene.as`
is real source and is embedded directly.
-/

namespace Starling

/-- A GPU buffer handle as tracked by an effect: an identity (so that
reallocation versus in-place reuse is observable), a recorded capacity
(index count for index buffers, 32-bit blocks for vertex buffers), and the
usage hint that was applied when the buffer was created. -/
structure Buffer where
  id : Nat
  capacity : Nat
  usage : String
  deriving DecidableEq, Repr

/-- Errors surfaced synchronously by effect operations: use after `dispose`,
rendering without buffers (resource-state error), and uploading empty data. -/
inductive EffectError where
  | effectDisposed
  | resourceState
  | invalidData
  deriving DecidableEq, Repr

/-- The observable state of one `Effect`: optional index- and vertex-buffer
handles, a counter supplying fresh buffer identities, and the disposed flag. -/
structure EffectState where
  indexBuffer : Option Buffer
  vertexBuffer : Option Buffer
  nextHandle : Nat
  disposed : Bool
  deriving DecidableEq, Repr

/-- One phase of the render protocol: `beforeDraw` (bind program, buffers and
MVP matrix), the `drawTriangles` call with the first index and the number of
triangles actually drawn, and `afterDraw` (restore shared context state). -/
inductive RenderPhase where
  | beforeDraw
  | drawTriangles (firstIndex : Nat) (numTriangles : Nat)
  | afterDraw
  deriving DecidableEq, Repr

namespace Effect

/-- A freshly constructed effect: no buffers, not disposed. -/
def initial : EffectState :=
  { indexBuffer := none, vertexBuffer := none, nextHandle := 0, disposed := false }

/-- Modelled from the spec: the implementation of
`Effect.uploadIndexData(indexData, bufferUsage)` is absent from `src/` (only
the `.d.ts` declaration is present).  If no index buffer exists, or the
existing buffer's capacity is smaller than the incoming index count, a new
buffer is allocated sized to the data with the usage hint applied; otherwise
the existing buffer is overwritten in place.  Empty data is invalid, and any
call after `dispose` fails. -/
def uploadIndexData (numIndices : Nat) (bufferUsage : String) (s : EffectState) :
    Except EffectError EffectState :=
  if s.disposed then .error .effectDisposed
  else if numIndices = 0 then .error .invalidData
  else
    match s.indexBuffer with
    | some b =>
        if numIndices ≤ b.capacity then
          .ok s
        else
          .ok { s with
                indexBuffer := some { id := s.nextHandle, capacity := numIndices,
                                      usage := bufferUsage },
                nextHandle := s.nextHandle + 1 }
    | none =>
        .ok { s with
              indexBuffer := some { id := s.nextHandle, capacity := numIndices,
                                    usage := bufferUsage },
              nextHandle := s.nextHandle + 1 }

/-- Modelled from the spec: the implementation of
`Effect.uploadVertexData(vertexData, bufferUsage)` is absent from `src/`.
Same reuse/reallocate policy as `uploadIndexData`, sized in 32-bit blocks. -/
def uploadVertexData (sizeIn32Bits : Nat) (bufferUsage : String) (s : EffectState) :
    Except EffectError EffectState :=
  if s.disposed then .error .effectDisposed
  else if sizeIn32Bits = 0 then .error .invalidData
  else
    match s.vertexBuffer with
    | some b =>
        if sizeIn32Bits ≤ b.capacity then
          .ok s
        else
          .ok { s with
                vertexBuffer := some { id := s.nextHandle, capacity := sizeIn32Bits,
                                       usage := bufferUsage },
                nextHandle := s.nextHandle + 1 }
    | none =>
        .ok { s with
              vertexBuffer := some { id := s.nextHandle, capacity := sizeIn32Bits,
                                     usage := bufferUsage },
              nextHandle := s.nextHandle + 1 }

/-- Modelled from the spec: the implementation of
`Effect.purgeBuffers(vertexBuffer, indexBuffer)` is absent from `src/`.
Releases the selected GPU buffer handles immediately. -/
def purgeBuffers (purgeVertex : Bool) (purgeIndex : Bool) (s : EffectState) :
    EffectState :=
  { s with
    vertexBuffer := if purgeVertex then none else s.vertexBuffer,
    indexBuffer := if purgeIndex then none else s.indexBuffer }

/-- Modelled from the spec: the implementation of `Effect.dispose()` is absent
from `src/`.  Purges both buffers unconditionally and marks the effect
unusable. -/
def dispose (s : EffectState) : EffectState :=
  { purgeBuffers true true s with disposed := true }

/-- Modelled from the spec: the triangle-range clamping of `Effect.render`.
A negative `numTriangles` means all available triangles; otherwise the
request is clamped to the triangles the index buffer provides from
`firstIndex` on. -/
def clampedTriangleCount (numIndices : Nat) (firstIndex : Nat)
    (numTriangles : Int) : Nat :=
  if numTriangles < 0 then (numIndices - firstIndex) / 3
  else min numTriangles.toNat ((numIndices - firstIndex) / 3)

/-- Modelled from the spec: the implementation of
`Effect.render(firstIndex, numTriangles)` is absent from `src/`.  Fails after
`dispose`; fails with a resource-state error unless both buffers exist;
otherwise executes `beforeDraw`, then `drawTriangles` on the clamped range,
then `afterDraw`, returning the phases it executed in order. -/
def render (firstIndex : Nat) (numTriangles : Int) (s : EffectState) :
    Except EffectError (List RenderPhase) :=
  if s.disposed then .error .effectDisposed
  else
    match s.indexBuffer, s.vertexBuffer with
    | some ib, some _ =>
        .ok [RenderPhase.beforeDraw,
             RenderPhase.drawTriangles firstIndex
               (clampedTriangleCount ib.capacity firstIndex numTriangles),
             RenderPhase.afterDraw]
    | _, _ => .error .resourceState

/-- Modelled from the spec: the implementation of the `programName` getter is
absent from `src/`.  Combines the program's base and variant names, e.g.
`LightEffect#42`. -/
def programName (programBaseName : String) (programVariantName : Nat) : String :=
  programBaseName ++ "#" ++ toString programVariantName

/-- Buffer identities an effect holds are always below its fresh-handle
counter; this is what makes a newly allocated handle distinct from the old
one. -/
def wf (s : EffectState) : Prop :=
  (∀ b, s.indexBuffer = some b → b.id < s.nextHandle) ∧
  (∀ b, s.vertexBuffer = some b → b.id < s.nextHandle)

end Effect

/-- The external program cache of the `Painter`, scoped to one rendering
context: registered programs keyed by program name, a log of the names for
which the `createProgram` factory was invoked, and a fresh program id. -/
structure ProgramCache where
  programs : List (String × Nat)
  created : List String
  nextProgramId : Nat
  deriving DecidableEq, Repr

/-- The result of resolving the `program` getter: the updated cache, the
program, and whether the `createProgram` factory was invoked. -/
structure ResolveResult where
  cache : ProgramCache
  prog : Nat
  invokedFactory : Bool
  deriving DecidableEq, Repr

/-- A program cache for a fresh rendering context. -/
def ProgramCache.empty : ProgramCache :=
  { programs := [], created := [], nextProgramId := 0 }

/-- Looks a program up by name in the cache's registration list. -/
def lookupProgram (name : String) : List (String × Nat) → Option Nat
  | [] => none
  | (k, p) :: rest => if name = k then some p else lookupProgram name rest

/-- Counts how often a name occurs in the factory-invocation log. -/
def countName (name : String) : List String → Nat
  | [] => 0
  | k :: rest => (if name = k then 1 else 0) + countName name rest

/-- Modelled from the spec: the implementation of the `program` getter is
absent from `src/`.  Returns the program registered under `name` at the
current context's cache when one exists; otherwise invokes the
`createProgram` factory once and registers the result. -/
def getProgram (c : ProgramCache) (name : String) : ResolveResult :=
  match lookupProgram name c.programs with
  | some p => { cache := c, prog := p, invokedFactory := false }
  | none =>
      { cache := { programs := (name, c.nextProgramId) :: c.programs,
                   created := name :: c.created,
                   nextProgramId := c.nextProgramId + 1 },
        prog := c.nextProgramId,
        invokedFactory := true }

/-- Runs a sequence of program resolutions against a cache. -/
def resolveAll (names : List String) (c : ProgramCache) : ProgramCache :=
  names.foldl (fun acc n => (getProgram acc n).cache) c

/-- The stage lifecycle events `MovieScene` listens to
(`src/samples/demo_npm/as3/src/scenes/MovieScene.as`, lines 32-33). -/
inductive StageEvent where
  | addedToStage
  | removedFromStage
  deriving DecidableEq, Repr

/-- The observable state of a `MovieScene`: whether the scene is on the stage
and whether its movie clip is currently in the Starling juggler. -/
structure MovieSceneState where
  onStage : Bool
  movieInJuggler : Bool
  deriving DecidableEq, Repr

namespace MovieScene

/-- A freshly constructed `MovieScene`: off stage, clip not yet juggled. -/
def initial : MovieSceneState :=
  { onStage := false, movieInJuggler := false }

/-- The event handlers of `MovieScene.as`: `onAddedToStage` adds `_movie` to
`Starling.current.juggler`, `onRemovedFromStage` removes it. -/
def handleEvent (s : MovieSceneState) (e : StageEvent) : MovieSceneState :=
  match e with
  | StageEvent.addedToStage => { s with onStage := true, movieInJuggler := true }
  | StageEvent.removedFromStage => { s with onStage := false, movieInJuggler := false }

/-- Processes a sequence of stage events. -/
def runEvents (events : List StageEvent) (s : MovieSceneState) : MovieSceneState :=
  events.foldl handleEvent s

end MovieScene

/-- A cache is well formed when, for every program name, the `createProgram`
factory has been invoked exactly once if a program is registered under that
name and never otherwise. -/
def cacheWf (c : ProgramCache) : Prop :=
  ∀ name, countName name c.created =
    if (lookupProgram name c.programs).isSome then 1 else 0

/-- A sample effect state whose index buffer holds 12 indices and whose
vertex buffer holds 8 data blocks, as obtained after one upload of each. -/
def sampleReady12 : EffectState :=
  { indexBuffer := some { id := 0, capacity := 12, usage := "staticDraw" },
    vertexBuffer := some { id := 1, capacity := 8, usage := "staticDraw" },
    nextHandle := 2, disposed := false }

/-- C1: `programName` is a pure function joining base name and variant with
a hash sign: for base name "Effect" it yields "Effect#0" at variant 0 and
"Effect#42" at variant 42. -/
theorem programName_joins_base_and_variant :
    (∀ base v, Effect.programName base v = base ++ "#" ++ toString v) ∧
    Effect.programName "Effect" 0 = "Effect#0" ∧
    Effect.programName "Effect" 42 = "Effect#42" :=
  ⟨fun _ _ => rfl, rfl, rfl⟩

/-- C9: `purgeBuffers` is idempotent: for every choice of the purge flags and
every effect state, purging twice leaves the same state as purging once. -/
theorem purgeBuffers_idempotent (purgeVertex purgeIndex : Bool) (s : EffectState) :
    Effect.purgeBuffers purgeVertex purgeIndex
        (Effect.purgeBuffers purgeVertex purgeIndex s) =
      Effect.purgeBuffers purgeVertex purgeIndex s := by
  cases purgeVertex <;> cases purgeIndex <;> rfl

/-- C10: after any sequence of stage events, the `MovieScene`'s movie clip is
in the Starling juggler exactly when the scene is on the stage. -/
theorem movie_in_juggler_iff_on_stage (events : List StageEvent) :
    (MovieScene.runEvents events MovieScene.initial).movieInJuggler =
      (MovieScene.runEvents events MovieScene.initial).onStage := by
  have key : ∀ (es : List StageEvent) (s : MovieSceneState),
      s.movieInJuggler = s.onStage →
      (MovieScene.runEvents es s).movieInJuggler =
        (MovieScene.runEvents es s).onStage := by
    intro es
    induction es with
    | nil => intro s h; exact h
    | cons e rest ih =>
        intro s h
        cases e <;> exact ih _ rfl
  exact key events MovieScene.initial rfl

/-- C2: uploading data whose size is at most the recorded buffer capacity
leaves the buffer handle and the recorded capacity unchanged, for both the
index and the vertex buffer. -/
theorem upload_within_capacity_reuses_buffer (s : EffectState) (bi bv : Buffer)
    (n m : Nat) (u v : String)
    (hd : s.disposed = false)
    (hib : s.indexBuffer = some bi) (hvb : s.vertexBuffer = some bv)
    (hn : 0 < n) (hm : 0 < m)
    (hni : n ≤ bi.capacity) (hmv : m ≤ bv.capacity) :
    Effect.uploadIndexData n u s = .ok s ∧ Effect.uploadVertexData m v s = .ok s := by
  constructor
  · simp [Effect.uploadIndexData, hd, hib, hni, Nat.pos_iff_ne_zero.mp hn]
  · simp [Effect.uploadVertexData, hd, hvb, hmv, Nat.pos_iff_ne_zero.mp hm]

theorem upload_within_capacity_reuses_buffer_witness :
    Effect.uploadIndexData 6 "staticDraw" sampleReady12 = .ok sampleReady12 ∧
    Effect.uploadVertexData 4 "staticDraw" sampleReady12 = .ok sampleReady12 :=
  upload_within_capacity_reuses_buffer sampleReady12
    { id := 0, capacity := 12, usage := "staticDraw" }
    { id := 1, capacity := 8, usage := "staticDraw" }
    6 4 "staticDraw" "staticDraw" rfl rfl rfl
    (by decide) (by decide) (by decide) (by decide)

/-- C3: uploading data that exceeds the current capacity (or uploading when
no buffer exists) allocates a new buffer whose recorded capacity is exactly
the size of the uploaded data; under the handle-freshness invariant the new
handle differs from the old one. -/
theorem upload_exceeding_capacity_reallocates (s : EffectState) (n m : Nat)
    (u v : String)
    (hd : s.disposed = false) (hn : 0 < n) (hm : 0 < m)
    (hneedi : ∀ b, s.indexBuffer = some b → b.capacity < n)
    (hneedv : ∀ b, s.vertexBuffer = some b → b.capacity < m) :
    (∃ s', Effect.uploadIndexData n u s = .ok s' ∧
       s'.indexBuffer = some { id := s.nextHandle, capacity := n, usage := u } ∧
       s'.nextHandle = s.nextHandle + 1 ∧
       (Effect.wf s → ∀ b, s.indexBuffer = some b →
         ∀ b', s'.indexBuffer = some b' → b'.id ≠ b.id)) ∧
    (∃ s', Effect.uploadVertexData m v s = .ok s' ∧
       s'.vertexBuffer = some { id := s.nextHandle, capacity := m, usage := v } ∧
       s'.nextHandle = s.nextHandle + 1 ∧
       (Effect.wf s → ∀ b, s.vertexBuffer = some b →
         ∀ b', s'.vertexBuffer = some b' → b'.id ≠ b.id)) := by
  have hn' : n ≠ 0 := Nat.pos_iff_ne_zero.mp hn
  have hm' : m ≠ 0 := Nat.pos_iff_ne_zero.mp hm
  constructor
  · refine ⟨{ s with
        indexBuffer := some { id := s.nextHandle, capacity := n, usage := u },
        nextHandle := s.nextHandle + 1 }, ?_, rfl, rfl, ?_⟩
    · cases hib : s.indexBuffer with
      | none => simp [Effect.uploadIndexData, hd, hn', hib]
      | some b =>
          have hlt := hneedi b hib
          simp [Effect.uploadIndexData, hd, hn', hib, Nat.not_le.mpr hlt]
    · intro hwf b0 hb0 b' hb'
      have hlt := hwf.1 b0 hb0
      have hb'eq : b' = { id := s.nextHandle, capacity := n, usage := u } :=
        (Option.some.inj hb').symm
      rw [hb'eq]
      exact fun hcontra => absurd hcontra.symm (Nat.ne_of_lt hlt)
  · refine ⟨{ s with
        vertexBuffer := some { id := s.nextHandle, capacity := m, usage := v },
        nextHandle := s.nextHandle + 1 }, ?_, rfl, rfl, ?_⟩
    · cases hvb : s.vertexBuffer with
      | none => simp [Effect.uploadVertexData, hd, hm', hvb]
      | some b =>
          have hlt := hneedv b hvb
          simp [Effect.uploadVertexData, hd, hm', hvb, Nat.not_le.mpr hlt]
    · intro hwf b0 hb0 b' hb'
      have hlt := hwf.2 b0 hb0
      have hb'eq : b' = { id := s.nextHandle, capacity := m, usage := v } :=
        (Option.some.inj hb').symm
      rw [hb'eq]
      exact fun hcontra => absurd hcontra.symm (Nat.ne_of_lt hlt)

theorem upload_exceeding_capacity_reallocates_witness :
    (∃ s', Effect.uploadIndexData 20 "staticDraw" sampleReady12 = .ok s' ∧
       s'.indexBuffer = some { id := 2, capacity := 20, usage := "staticDraw" } ∧
       s'.nextHandle = 3 ∧
       (Effect.wf sampleReady12 → ∀ b, sampleReady12.indexBuffer = some b →
         ∀ b', s'.indexBuffer = some b' → b'.id ≠ b.id)) ∧
    (∃ s', Effect.uploadVertexData 16 "staticDraw" sampleReady12 = .ok s' ∧
       s'.vertexBuffer = some { id := 2, capacity := 16, usage := "staticDraw" } ∧
       s'.nextHandle = 3 ∧
       (Effect.wf sampleReady12 → ∀ b, sampleReady12.vertexBuffer = some b →
         ∀ b', s'.vertexBuffer = some b' → b'.id ≠ b.id)) :=
  upload_exceeding_capacity_reallocates sampleReady12 20 16 "staticDraw" "staticDraw"
    rfl (by decide) (by decide)
    (fun b hb => by cases Option.some.inj hb; decide)
    (fun b hb => by cases Option.some.inj hb; decide)

/-- C4: `render` clamps the requested triangle range to the available index
count: the executed draw call never reaches past the index buffer, never
draws more triangles than requested, a negative request means all available
triangles, and with 12 indices a request for 10 triangles is clamped to 4. -/
theorem render_clamps_triangle_range (s : EffectState) (ib vb : Buffer)
    (hd : s.disposed = false) (hib : s.indexBuffer = some ib)
    (hvb : s.vertexBuffer = some vb) (f : Nat) (t : Int) :
    Effect.render f t s =
      .ok [RenderPhase.beforeDraw,
           RenderPhase.drawTriangles f (Effect.clampedTriangleCount ib.capacity f t),
           RenderPhase.afterDraw] ∧
    3 * Effect.clampedTriangleCount ib.capacity f t ≤ ib.capacity - f ∧
    (0 ≤ t → Effect.clampedTriangleCount ib.capacity f t ≤ t.toNat) ∧
    (t < 0 → Effect.clampedTriangleCount ib.capacity f t = (ib.capacity - f) / 3) ∧
    Effect.clampedTriangleCount 12 0 10 = 4 := by
  refine ⟨?_, ?_, ?_, ?_, by decide⟩
  · simp [Effect.render, hd, hib, hvb]
  · unfold Effect.clampedTriangleCount
    split <;> omega
  · intro ht
    unfold Effect.clampedTriangleCount
    split <;> omega
  · intro ht
    simp [Effect.clampedTriangleCount, ht]

theorem render_clamps_triangle_range_witness :
    Effect.render 0 10 sampleReady12 =
      .ok [RenderPhase.beforeDraw, RenderPhase.drawTriangles 0 4,
           RenderPhase.afterDraw] :=
  (render_clamps_triangle_range sampleReady12
    { id := 0, capacity := 12, usage := "staticDraw" }
    { id := 1, capacity := 8, usage := "staticDraw" } rfl rfl rfl 0 10).1

/-- C5: `dispose` purges both buffers unconditionally and is terminal: every
subsequent `uploadIndexData`, `uploadVertexData` or `render` call fails. -/
theorem dispose_is_terminal (s : EffectState) :
    (Effect.dispose s).indexBuffer = none ∧
    (Effect.dispose s).vertexBuffer = none ∧
    (∀ n u, Effect.uploadIndexData n u (Effect.dispose s) =
      .error .effectDisposed) ∧
    (∀ m u, Effect.uploadVertexData m u (Effect.dispose s) =
      .error .effectDisposed) ∧
    (∀ f t, Effect.render f t (Effect.dispose s) = .error .effectDisposed) :=
  ⟨rfl, rfl, fun _ _ => rfl, fun _ _ => rfl, fun _ _ => rfl⟩

/-- C6: purging both buffers and then rendering without re-upload fails with
a resource-state error; `render` only succeeds when both buffers exist, which
requires at least one successful upload of each, and in particular fails on a
freshly constructed effect. -/
theorem render_after_purge_fails (s : EffectState) (hd : s.disposed = false) :
    (∀ f t, Effect.render f t (Effect.purgeBuffers true true s) =
        .error .resourceState) ∧
    (∀ (s' : EffectState) f t tr, Effect.render f t s' = .ok tr →
        s'.indexBuffer.isSome = true ∧ s'.vertexBuffer.isSome = true) ∧
    (∀ f t, Effect.render f t Effect.initial = .error .resourceState) := by
  refine ⟨?_, ?_, fun _ _ => rfl⟩
  · intro f t
    simp [Effect.render, Effect.purgeBuffers, hd]
  · intro s' f t tr h
    unfold Effect.render at h
    split at h
    · simp at h
    · split at h <;> simp_all

theorem render_after_purge_fails_witness :
    Effect.render 0 (-1) (Effect.purgeBuffers true true sampleReady12) =
      .error .resourceState :=
  (render_after_purge_fails sampleReady12 rfl).1 0 (-1)

/-- C7: every successful `render` executes exactly three phases in order:
`beforeDraw`, then the `drawTriangles` call for the requested range, then
`afterDraw`. -/
theorem render_executes_three_phases (s : EffectState) (f : Nat) (t : Int)
    (tr : List RenderPhase) (h : Effect.render f t s = .ok tr) :
    ∃ k, tr = [RenderPhase.beforeDraw, RenderPhase.drawTriangles f k,
               RenderPhase.afterDraw] := by
  unfold Effect.render at h
  split at h
  · simp at h
  · split at h
    · exact ⟨_, (Except.ok.inj h).symm⟩
    · simp at h

theorem render_executes_three_phases_witness :
    ∃ k, [RenderPhase.beforeDraw, RenderPhase.drawTriangles 0 4,
          RenderPhase.afterDraw] =
      [RenderPhase.beforeDraw, RenderPhase.drawTriangles 0 k,
       RenderPhase.afterDraw] :=
  render_executes_three_phases sampleReady12 0 10
    [RenderPhase.beforeDraw, RenderPhase.drawTriangles 0 4,
     RenderPhase.afterDraw] rfl

theorem getProgram_registers (c : ProgramCache) (name : String) :
    lookupProgram name (getProgram c name).cache.programs =
      some (getProgram c name).prog := by
  unfold getProgram
  cases hl : lookupProgram name c.programs with
  | some p => simp [hl]
  | none => simp [hl, lookupProgram]

theorem getProgram_cached (c : ProgramCache) (name : String) (p : Nat)
    (h : lookupProgram name c.programs = some p) :
    getProgram c name = { cache := c, prog := p, invokedFactory := false } := by
  unfold getProgram
  rw [h]

theorem getProgram_preserves_cacheWf (c : ProgramCache) (n : String)
    (h : cacheWf c) : cacheWf (getProgram c n).cache := by
  intro name
  unfold getProgram
  cases hl : lookupProgram n c.programs with
  | some p => simpa using h name
  | none =>
      by_cases hn : name = n
      · subst hn
        have hc := h name
        rw [hl] at hc
        simp at hc
        simp [countName, lookupProgram, hc]
      · have hc := h name
        simp [countName, lookupProgram, hn, hc]

theorem resolveAll_cacheWf (names : List String) (c : ProgramCache)
    (h : cacheWf c) : cacheWf (resolveAll names c) := by
  induction names generalizing c with
  | nil => exact h
  | cons n rest ih =>
      have hstep := getProgram_preserves_cacheWf c n h
      simpa [resolveAll] using ih (getProgram c n).cache hstep

theorem emptyCache_wf : cacheWf ProgramCache.empty := by
  intro name
  simp [ProgramCache.empty, lookupProgram, countName]

/-- C8: per rendering context, a program is created at most once per distinct
program name: once a program is cached under a name, resolving that name
returns the cached program without invoking the `createProgram` factory, and
over any sequence of resolutions from a fresh context the factory runs at
most once per name. -/
theorem program_created_at_most_once :
    (∀ c name,
      getProgram (getProgram c name).cache name =
        { cache := (getProgram c name).cache, prog := (getProgram c name).prog,
          invokedFactory := false }) ∧
    (∀ names name,
      countName name (resolveAll names ProgramCache.empty).created ≤ 1) := by
  constructor
  · intro c name
    exact getProgram_cached (getProgram c name).cache name
      (getProgram c name).prog (getProgram_registers c name)
  · intro names name
    have hwf := resolveAll_cacheWf names ProgramCache.empty emptyCache_wf name
    rw [hwf]
    split <;> omega

end Starling
